import Mathlib

/-!
Verification of the G3-Chat-with-MCP repository against its specification.

The development shallowly embeds the two source files:
* `backend/server.py` — the streaming tool-call orchestrator
  (`smart_stream_generator`, lines 115–260);
* `client_agent.py` — the remote agent (`handle_message`, `agent_loop`,
  `tool_search_emails`, `parse_email_summary`, the tool registry).

Python falsiness of optional strings (`None` or `""`) is modelled by `""`;
fallible calls are modelled with `Except String`; the OpenAI stream, the
MCP manager and the Outlook COM collection are external inputs and appear
as parameters of the embedded functions.
-/

namespace G3Chat

/-- Concatenation of a list of strings in order (used to state the
    append-only reconstruction and flush-preservation properties). -/
def concatAll : List String → String
  | [] => ""
  | s :: l => s ++ concatAll l

/-- The last non-empty string of a list, if any: the value retained by a
    sequence of `if fragment_field: slot_field = fragment_field` updates. -/
def lastNonEmpty (l : List String) : Option String :=
  (l.filter (fun s => decide (s ≠ ""))).getLast?

/-! ## Streaming tool-call orchestrator (backend/server.py) -/

/-- One member of `delta.tool_calls` in a streamed chunk
    (server.py lines 178–189).  `index` is `tc.index` (may be `None`);
    `id`, `name`, `arguments` model `tc.id`, `tc.function.name`,
    `tc.function.arguments`, with `""` standing for Python-falsy. -/
structure ToolCallFragment where
  index : Option Nat
  id : String
  name : String
  arguments : String
deriving DecidableEq, Repr

/-- An accumulated entry of the `tool_calls` list
    (server.py lines 182–186): a dict
    with keys id, type, function.name, function.arguments, flattened. -/
structure ToolCall where
  id : String
  type : String
  name : String
  arguments : String
deriving DecidableEq, Repr

/-- The empty placeholder appended while growing the array
    (server.py lines 182–186). -/
def placeholderToolCall : ToolCall :=
  { id := "", type := "function", name := "", arguments := "" }

/-- One streamed delta, `chunk.choices[0].delta`: possibly-empty tool-call fragment list and
    possibly-empty text content (`""` models falsy `delta.content`). -/
structure Delta where
  tool_calls : List ToolCallFragment
  content : String
deriving DecidableEq, Repr

/-- One server-sent event frame yielded by the generator.  `text` is the
    frame `data: \x7b"choices":[\x7b"delta":\x7b"content": s\x7d\x7d]\x7d`;
    `toolStart`/`toolEnd`/`error` are the `type`-tagged JSON frames;
    `passthrough` is a verbatim round-2 chunk; `done` is `data: [DONE]`. -/
inductive Frame where
  | text (content : String)
  | toolStart (tool description : String)
  | toolEnd (result : String)
  | error (message : String)
  | passthrough (chunk : String)
  | done
deriving DecidableEq, Repr

/-- The loop state of the stream phase (server.py lines 164–166). -/
structure StreamState where
  tool_calls : List ToolCall
  text_buffer : String
  is_tool_mode : Bool
deriving DecidableEq, Repr

/-- Initial state: `tool_calls = []`, `text_buffer = ""`,
    `is_tool_mode = False` (server.py lines 164–166). -/
def initState : StreamState :=
  { tool_calls := [], text_buffer := "", is_tool_mode := false }

/-- The grow loop `while len(tool_calls) <= tc.index: append(placeholder)`
    (server.py lines 180–186): pad on the right to length at least `n`. -/
def padTo (tcs : List ToolCall) (n : Nat) : List ToolCall :=
  tcs ++ List.replicate (n - tcs.length) placeholderToolCall

/-- Merging one fragment into the accumulated array
    (server.py lines 179–189): skip when `tc.index is None`; otherwise grow
    the array, then overwrite `id`/`name` when the fragment carries a
    non-empty one and append `arguments`. -/
def applyFragment (tcs : List ToolCall) (tc : ToolCallFragment) : List ToolCall :=
  match tc.index with
  | none => tcs
  | some i =>
      let grown := padTo tcs (i + 1)
      let cur := grown.getD i placeholderToolCall
      grown.set i
        { id := if tc.id ≠ "" then tc.id else cur.id
          type := cur.type
          name := if tc.name ≠ "" then tc.name else cur.name
          arguments := cur.arguments ++ tc.arguments }

/-- Processing of one streamed delta (server.py lines 168–201):
    part A merges tool-call fragments (entering tool mode and discarding the
    text buffer on the first tool-call delta), part B buffers plain content
    and flushes the buffer as a text frame once it exceeds 60 characters. -/
def processDelta (st : StreamState) (d : Delta) : StreamState × List Frame :=
  let st1 :=
    if d.tool_calls.isEmpty then st
    else
      let st' :=
        if st.is_tool_mode then st
        else { st with is_tool_mode := true, text_buffer := "" }
      { st' with tool_calls := d.tool_calls.foldl applyFragment st'.tool_calls }
  if d.content = "" then (st1, [])
  else if st1.is_tool_mode then (st1, [])
  else
    let buf := st1.text_buffer ++ d.content
    if buf.length > 60 then ({ st1 with text_buffer := "" }, [Frame.text buf])
    else ({ st1 with text_buffer := buf }, [])

/-- The `for chunk in stream` loop (server.py lines 168–201), returning the
    final state and the frames yielded during the loop, in order. -/
def processDeltas : StreamState → List Delta → StreamState × List Frame
  | st, [] => (st, [])
  | st, d :: ds =>
      let p1 := processDelta st d
      let p2 := processDeltas p1.1 ds
      (p2.1, p1.2 ++ p2.2)

/-- The residual check `if text_buffer and not tool_calls` (server.py lines 206–207):
    the end-of-loop flush of a non-empty residual buffer when no tool call
    was accumulated. -/
def trailingFlush (st : StreamState) : List Frame :=
  if st.text_buffer = "" then []
  else if st.tool_calls.isEmpty then [Frame.text st.text_buffer]
  else []

/-- Keyword arguments of a tool call, as decoded from the arguments JSON. -/
abbrev Args := List (String × String)

/-- A tool-role history message appended in round 2
    (server.py lines 236 and 243). -/
structure ToolMessage where
  role : String
  tool_call_id : String
  content : String
deriving DecidableEq, Repr

/-- Default of `tool_descriptions_map.get(func_name, "Executing enterprise utility
    function...")` (server.py line 221). -/
def defaultDescription : String := "Executing enterprise utility function..."

/-- The external collaborators of round 2: the description map built at
    server.py lines 133–137, `json.loads` on the accumulated arguments
    string (line 227, `Except.error` = raised decode exception), and
    `mcp_manager.execute_tool` (line 231, `Except.error` = raised
    exception). -/
structure OrchestratorEnv where
  descriptions : List (String × String)
  parseArgs : String → Except String Args
  executeTool : String → Args → Except String String

/-- Dictionary lookup with default on the description map
    (server.py line 221). -/
def lookupDescription (m : List (String × String)) (name : String) : String :=
  match m.find? (fun p => p.1 == name) with
  | some p => p.2
  | none => defaultDescription

/-- One iteration of the `for tc in tool_calls` loop
    (server.py lines 216–243): a tool-started frame, then either a
    tool-result frame or an error frame, and exactly one tool-role history
    message carrying the call's id — `json.loads` failure and
    `execute_tool` failure both land in the same `except` clause. -/
def runToolCall (env : OrchestratorEnv) (tc : ToolCall) : List Frame × ToolMessage :=
  let startFrame := Frame.toolStart tc.name (lookupDescription env.descriptions tc.name)
  match env.parseArgs tc.arguments with
  | Except.error e =>
      ([startFrame, Frame.error e],
       { role := "tool", tool_call_id := tc.id, content := "Error: " ++ e })
  | Except.ok args =>
      match env.executeTool tc.name args with
      | Except.ok r =>
          ([startFrame, Frame.toolEnd r],
           { role := "tool", tool_call_id := tc.id, content := r })
      | Except.error e =>
          ([startFrame, Frame.error e],
           { role := "tool", tool_call_id := tc.id, content := "Error: " ++ e })

/-- The whole round-2 tool loop (server.py lines 216–243): frames yielded
    in order, and the tool-role messages appended to history in order. -/
def runToolCalls (env : OrchestratorEnv) : List ToolCall → List Frame × List ToolMessage
  | [] => ([], [])
  | tc :: tcs =>
      let p1 := runToolCall env tc
      let p2 := runToolCalls env tcs
      (p1.1 ++ p2.1, p1.2 :: p2.2)

/-- Outcome of iterating the round-1 model stream: either all deltas are
    delivered, or the stream raises after delivering a prefix. -/
inductive StreamResult where
  | ok (deltas : List Delta)
  | failsAfter (deltas : List Delta) (message : String)

/-- Outcome of the round-2 stream (server.py lines 246–253): chunks relayed
    verbatim, possibly cut short by a raised exception. -/
inductive Round2Result where
  | ok (chunks : List String)
  | failsAfter (chunks : List String) (message : String)

/-- The external world of one `smart_stream_generator` run: `setup`
    models steps 1–2 (client construction and
    `mcp_manager.get_all_tools_definitions`, which may raise), `stream1`
    the round-1 model stream, `stream2` the round-2 model stream. -/
structure RunEnv where
  setup : Except String Unit
  orch : OrchestratorEnv
  stream1 : StreamResult
  stream2 : Round2Result

/-- The orchestrator `smart_stream_generator` (server.py lines 115–260) as
    the list of frames it yields: on the happy path the stream phase, the
    residual flush, the tool round with round-2 relay when tool calls were
    accumulated, then the `data: [DONE]` terminator; any exception raised
    inside the `try` yields a single error frame after the frames already
    yielded, and the generator ends there — the source emits no terminator
    on the error path. -/
def smart_stream_generator (env : RunEnv) : List Frame :=
  match env.setup with
  | Except.error e => [Frame.error e]
  | Except.ok _ =>
      match env.stream1 with
      | StreamResult.failsAfter ds msg =>
          (processDeltas initState ds).2 ++ [Frame.error msg]
      | StreamResult.ok ds =>
          let p := processDeltas initState ds
          let frames2 := trailingFlush p.1
          if p.1.tool_calls.isEmpty then
            p.2 ++ frames2 ++ [Frame.done]
          else
            let p3 := runToolCalls env.orch p.1.tool_calls
            match env.stream2 with
            | Round2Result.failsAfter cs msg =>
                p.2 ++ frames2 ++ p3.1 ++ cs.map Frame.passthrough ++ [Frame.error msg]
            | Round2Result.ok cs =>
                p.2 ++ frames2 ++ p3.1 ++ cs.map Frame.passthrough ++ [Frame.done]

/-- Content carried by a text frame; `""` for every other frame kind. -/
def textContent : Frame → String
  | Frame.text s => s
  | _ => ""

/-- Concatenated text content of a frame sequence. -/
def framesText (fs : List Frame) : String := concatAll (fs.map textContent)

/-- Concatenated content of a delta sequence. -/
def deltasText (ds : List Delta) : String := concatAll (ds.map Delta.content)

/-! ## Remote agent (client_agent.py) -/

/-- A value returned (not raised) by a tool handler: either the in-band
    error object `\x7b"error": msg\x7d` every tool returns on internal
    failure, or any other JSON-serializable value, carried here by its
    serialization. -/
inductive ToolValue where
  | errObj (message : String)
  | plain (serialized : String)
deriving DecidableEq, Repr

/-- Serialization `json.dumps(result, default=str)` (client_agent.py line 576) on a
    handler's return value. -/
def serializeToolValue : ToolValue → String
  | ToolValue.errObj m => "\x7b\"error\": \"" ++ m ++ "\"\x7d"
  | ToolValue.plain s => s

/-- An entry of `TOOLS_REGISTRY` (client_agent.py lines 352–515): the
    handler (`Except.error` models a raised exception, `Except.ok` a
    returned value), the blocking hint, and the advertised schema
    (carried opaquely by its serialization). -/
structure ToolEntry where
  handler : Args → Except String ToolValue
  blocking : Bool
  schema : String

/-- The registry: an association list from tool name to entry. -/
abbrev Registry := List (String × ToolEntry)

/-- Lookup `TOOLS_REGISTRY.get(name)` (client_agent.py line 565); `name` is
    `params.get("name")` and may be absent. -/
def registryLookup (reg : Registry) (name : Option String) : Option ToolEntry :=
  match name with
  | none => none
  | some n => (reg.find? (fun p => p.1 == n)).map (fun p => p.2)

/-- A decoded inbound envelope as read by `handle_message`
    (client_agent.py lines 549–554): `data.get("id")`,
    `data.get("method")`, `params.get("name")`,
    `params.get("arguments", \x7b\x7d)`, and `data.get("result")`
    (compared against "pong"; a non-string result is modelled as `none`,
    which equally fails that comparison). -/
structure Envelope where
  id : Option Int
  method : Option String
  paramsName : Option String
  paramsArgs : Args
  result : Option String

/-- The error member of a response (client_agent.py lines 578 and 580). -/
structure RpcError where
  code : Int
  message : String
deriving DecidableEq, Repr

/-- The result member of a response: the `tools/list` schema array
    (line 560) or the `tools/call` content wrapper
    `\x7b"content": [\x7b"type": "text", "text": t\x7d]\x7d` (line 576),
    carried by its text. -/
inductive RpcResult where
  | toolsList (schemas : List String)
  | content (text : String)
deriving DecidableEq, Repr

/-- The JSON object sent back by `handle_message`
    (client_agent.py lines 557–582): always `jsonrpc` and the request id;
    `result` and `error` only when a branch set them. -/
structure Response where
  jsonrpc : String
  id : Option Int
  result : Option RpcResult
  error : Option RpcError
deriving DecidableEq, Repr

/-- The dispatcher `handle_message` (client_agent.py lines 549–582): returns the response
    sent on the socket (`none` when the early `return` for ping/pong fires)
    together with the registry, which the function never mutates.  Unknown
    methods fall through every branch and still send the bare
    `\x7b"jsonrpc": "2.0", "id": msg_id\x7d` envelope. -/
def handle_message (reg : Registry) (data : Envelope) : Option Response × Registry :=
  if data.method = some "ping" ∨ data.result = some "pong" then (none, reg)
  else
    let base : Response := { jsonrpc := "2.0", id := data.id, result := none, error := none }
    let resp :=
      if data.method = some "tools/list" then
        { base with result := some (RpcResult.toolsList (reg.map (fun p => p.2.schema))) }
      else if data.method = some "tools/call" then
        match registryLookup reg data.paramsName with
        | some tool =>
            match tool.handler data.paramsArgs with
            | Except.ok v =>
                { base with result := some (RpcResult.content (serializeToolValue v)) }
            | Except.error e =>
                { base with error := some { code := -32000, message := e } }
        | none => { base with error := some { code := -32601, message := "Tool not found" } }
      else base
    (some resp, reg)

/-- How one pass of the `while True` body of `agent_loop`
    (client_agent.py lines 532–547) ends: `connectFail` — the
    `websockets.connect` call raises; `closedInLoop` — the connection is
    established and later ends with `ConnectionClosed`, caught by the inner
    handler (or the message iterator simply ends); `errorInLoop` — the
    connection is established and some other exception escapes to the
    outer handler. -/
inductive ConnOutcome where
  | connectFail (message : String)
  | closedInLoop
  | errorInLoop (message : String)
deriving DecidableEq, Repr

/-- Observable events of the reconnect loop: a connection attempt
    (`websockets.connect`) or an `asyncio.sleep` backoff. -/
inductive AgentEvent where
  | connectAttempt
  | backoff (seconds : Nat)
deriving DecidableEq, Repr

/-- Events of one `while True` iteration (client_agent.py lines 532–547):
    every iteration attempts a connection; the 5-second sleep is inside the
    outer `except Exception` handler, so it runs only when an exception
    reaches that handler — a `ConnectionClosed` caught by the inner handler
    leaves the `async with` block normally and reaches no sleep. -/
def agentIteration : ConnOutcome → List AgentEvent
  | ConnOutcome.connectFail _ => [AgentEvent.connectAttempt, AgentEvent.backoff 5]
  | ConnOutcome.closedInLoop => [AgentEvent.connectAttempt]
  | ConnOutcome.errorInLoop _ => [AgentEvent.connectAttempt, AgentEvent.backoff 5]

/-- The trace of the first iterations of the non-terminating `while True`
    loop of `agent_loop` (client_agent.py lines 528–547), given how each
    iteration's connection ends. -/
def agent_loop : List ConnOutcome → List AgentEvent
  | [] => []
  | o :: os => agentIteration o ++ agent_loop os

/-- Number of connection attempts in a trace. -/
def countAttempts (tr : List AgentEvent) : Nat :=
  (tr.filter (fun e => e == AgentEvent.connectAttempt)).length

/-- Holds (as `true`) when no two connection attempts are adjacent in the trace,
    i.e. every pair of consecutive attempts is separated by a backoff. -/
def noAdjacentAttempts : List AgentEvent → Bool
  | AgentEvent.connectAttempt :: AgentEvent.connectAttempt :: _ => false
  | _ :: rest => noAdjacentAttempts rest
  | [] => true

/-- An Outlook mail item as read by the tools (the COM fields consumed by
    `parse_email_summary`, client_agent.py lines 72–84). -/
structure Email where
  entryID : String
  subject : String
  sender : String
  received : String
  body : String
  attachmentsCount : Nat
deriving DecidableEq, Repr

/-- The summary dict built by `parse_email_summary`
    (client_agent.py lines 72–84). -/
structure EmailSummary where
  id : String
  subject : String
  sender : String
  received : String
  preview : String
  has_attachments : Bool
deriving DecidableEq, Repr

/-- Summary extraction `parse_email_summary` (client_agent.py lines 72–84): the preview is the
    first 100 characters of the body with CR and LF turned into spaces,
    suffixed with an ellipsis.  The COM-failure `except` branch is outside
    this model (its input would not be an `Email` value). -/
def parse_email_summary (msg : Email) : EmailSummary :=
  { id := msg.entryID
    subject := msg.subject
    sender := msg.sender
    received := msg.received
    preview := (((msg.body.take 100).replace "\r" " ").replace "\n" " ") ++ "..."
    has_attachments := 0 < msg.attachmentsCount }

/-- Search tool `tool_search_emails` (client_agent.py lines 119–144), result-building
    loop of lines 138–142: `matching` is the already-restricted and sorted
    COM collection (the Outlook side is external); the loop
    `for i in range(min(count, 20))` with `break` once `i >= len(items)`
    collects the first `min(count, 20)` items — `range` of a negative
    bound is empty, hence the `Int.toNat` clamp. -/
def tool_search_emails (matching : List Email) (count : Int) : List EmailSummary :=
  (matching.take (min count 20).toNat).map parse_email_summary

/-! ## Generic list helpers -/

/-- Reading with `getD` after `set` at the written index. -/
theorem getD_set_self {α : Type} (l : List α) :
    ∀ (i : Nat) (a d : α), i < l.length → (l.set i a).getD i d = a := by
  induction l with
  | nil => intro i a d h; exact absurd h (by simp)
  | cons x t ih =>
      intro i a d h
      cases i with
      | zero => rfl
      | succ i => exact ih i a d (by simpa using h)

/-- Reading with `getD` after `set` at a different index. -/
theorem getD_set_ne {α : Type} (l : List α) :
    ∀ (i j : Nat) (a d : α), i ≠ j → (l.set i a).getD j d = l.getD j d := by
  induction l with
  | nil => intro i j a d _; rfl
  | cons x t ih =>
      intro i j a d hij
      cases i with
      | zero =>
          cases j with
          | zero => exact absurd rfl hij
          | succ j => rfl
      | succ i =>
          cases j with
          | zero => rfl
          | succ j => exact ih i j a d (fun h => hij (by rw [h]))

/-- Reading with `getD` inside a replicate. -/
theorem getD_replicate_of_lt {α : Type} (a d : α) :
    ∀ (n j : Nat), j < n → (List.replicate n a).getD j d = a := by
  intro n
  induction n with
  | zero => intro j h; exact absurd h (by simp)
  | succ n ih =>
      intro j h
      cases j with
      | zero => rfl
      | succ j => exact ih j (by omega)

/-- Reading with `getD` through a `map`, below the length. -/
theorem getD_map_of_lt {α β : Type} (g : α → β) (l : List α) :
    ∀ (k : Nat) (d : β) (d' : α), k < l.length → (l.map g).getD k d = g (l.getD k d') := by
  induction l with
  | nil => intro k d d' h; exact absurd h (by simp)
  | cons a t ih =>
      intro k d d' h
      cases k with
      | zero => rfl
      | succ k => exact ih k d d' (by simpa using h)

/-- Reading with `getD` below the length yields a member. -/
theorem getD_mem_of_lt {α : Type} (l : List α) :
    ∀ (k : Nat) (d : α), k < l.length → l.getD k d ∈ l := by
  induction l with
  | nil => intro k d h; exact absurd h (by simp)
  | cons a t ih =>
      intro k d h
      cases k with
      | zero => exact List.mem_cons_self _ _
      | succ k => exact List.mem_cons_of_mem _ (ih k d (by simpa using h))

/-- Concatenation `concatAll` distributes over append. -/
theorem concatAll_append (a b : List String) :
    concatAll (a ++ b) = concatAll a ++ concatAll b := by
  induction a with
  | nil => simp [concatAll, String.empty_append]
  | cons s t ih => simp [concatAll, ih, String.append_assoc]

/-- The `getLast?`-with-default of a cons peels into the default slot. -/
theorem getLast?_getD_cons (l : List String) :
    ∀ (a d : String), ((a :: l).getLast?).getD d = (l.getLast?).getD a := by
  induction l with
  | nil => intro a d; rfl
  | cons b t ih =>
      intro a d
      rw [List.getLast?_cons_cons]
      rw [ih b d, ih b a]

/-- The accumulator fold that models repeated
    `if field: slot = field` overwrites. -/
def keepNonEmpty (acc : String) (l : List String) : String :=
  l.foldl (fun a s => if s ≠ "" then s else a) acc

/-- The overwrite fold keeps exactly the last non-empty value (or the
    starting accumulator when none is non-empty). -/
theorem keepNonEmpty_eq (l : List String) :
    ∀ acc, keepNonEmpty acc l = (lastNonEmpty l).getD acc := by
  induction l with
  | nil => intro acc; rfl
  | cons s t ih =>
      intro acc
      by_cases hs : s = ""
      · subst hs
        have h1 : keepNonEmpty acc ("" :: t) = keepNonEmpty acc t := rfl
        rw [h1, ih acc]
        simp [lastNonEmpty, List.filter]
      · have h1 : keepNonEmpty acc (s :: t) = keepNonEmpty s t := by
          simp [keepNonEmpty, List.foldl, hs]
        rw [h1, ih s]
        have h2 : lastNonEmpty (s :: t) = ((s :: t.filter (fun x => decide (x ≠ ""))).getLast?) := by
          simp [lastNonEmpty, List.filter, hs]
        rw [h2, getLast?_getD_cons]
        rfl

/-! ## Claim C3 — fragment merging helper lemmas -/

/-- Padding to an already-reached length is the identity
    (the `while` guard `len(tool_calls) <= tc.index` fails at once). -/
theorem padTo_of_lt (tcs : List ToolCall) (i : Nat) (h : i < tcs.length) :
    padTo tcs (i + 1) = tcs := by
  simp [padTo, Nat.sub_eq_zero_of_le h]

/-- Merging one fragment never shrinks the array. -/
theorem length_le_applyFragment (tcs : List ToolCall) (f : ToolCallFragment) :
    tcs.length ≤ (applyFragment tcs f).length := by
  cases hf : f.index with
  | none => simp [applyFragment, hf]
  | some i =>
      simp [applyFragment, hf, padTo]

/-- Folding fragments never shrinks the array. -/
theorem length_le_foldl_applyFragment (fs : List ToolCallFragment) :
    ∀ tcs : List ToolCall, tcs.length ≤ (fs.foldl applyFragment tcs).length := by
  induction fs with
  | nil => intro tcs; exact le_refl _
  | cons f t ih =>
      intro tcs
      exact le_trans (length_le_applyFragment tcs f) (ih (applyFragment tcs f))

/-- A fold containing an indexed fragment leaves a non-empty array. -/
theorem foldl_applyFragment_pos (fs : List ToolCallFragment) (f : ToolCallFragment)
    (i : Nat) (hf : f ∈ fs) (hi : f.index = some i) :
    ∀ tcs : List ToolCall, 0 < (fs.foldl applyFragment tcs).length := by
  induction fs with
  | nil => cases hf
  | cons g gs ih =>
      intro tcs
      rcases List.mem_cons.mp hf with h | h
      · subst h
        have h1 : 0 < (applyFragment tcs f).length := by
          simp [applyFragment, hi, padTo]
          omega
        exact lt_of_lt_of_le h1 (length_le_foldl_applyFragment gs _)
      · exact ih h _

/-- Fragment folding over a fixed-length array, all fragments sharing the
    reported index `i`: the length is preserved, slot `i` accumulates
    arguments by concatenation and keeps the last non-empty id and name,
    its type marker is untouched, and every other slot is untouched. -/
theorem foldl_applyFragment_fixed (i : Nat) (fs : List ToolCallFragment)
    (hidx : ∀ f ∈ fs, f.index = some i) :
    ∀ tcs : List ToolCall, i < tcs.length →
      (fs.foldl applyFragment tcs).length = tcs.length ∧
      ((fs.foldl applyFragment tcs).getD i placeholderToolCall).id
        = keepNonEmpty ((tcs.getD i placeholderToolCall).id)
            (fs.map ToolCallFragment.id) ∧
      ((fs.foldl applyFragment tcs).getD i placeholderToolCall).name
        = keepNonEmpty ((tcs.getD i placeholderToolCall).name)
            (fs.map ToolCallFragment.name) ∧
      ((fs.foldl applyFragment tcs).getD i placeholderToolCall).arguments
        = (tcs.getD i placeholderToolCall).arguments
            ++ concatAll (fs.map ToolCallFragment.arguments) ∧
      ((fs.foldl applyFragment tcs).getD i placeholderToolCall).type
        = (tcs.getD i placeholderToolCall).type ∧
      (∀ j, j ≠ i → (fs.foldl applyFragment tcs).getD j placeholderToolCall
        = tcs.getD j placeholderToolCall) := by
  induction fs with
  | nil =>
      intro tcs h
      refine ⟨rfl, rfl, rfl, ?_, rfl, fun j _ => rfl⟩
      simp [concatAll, String.append_empty]
  | cons f t ih =>
      intro tcs h
      have hfi : f.index = some i := hidx f (List.mem_cons_self _ _)
      have hstep : applyFragment tcs f =
          tcs.set i
            { id := if f.id ≠ "" then f.id else (tcs.getD i placeholderToolCall).id
              type := (tcs.getD i placeholderToolCall).type
              name := if f.name ≠ "" then f.name else (tcs.getD i placeholderToolCall).name
              arguments := (tcs.getD i placeholderToolCall).arguments ++ f.arguments } := by
        simp [applyFragment, hfi, padTo_of_lt tcs i h]
      have hlen : (applyFragment tcs f).length = tcs.length := by
        rw [hstep, List.length_set]
      have hlt : i < (applyFragment tcs f).length := by rw [hlen]; exact h
      have hrest := ih (fun g hg => hidx g (List.mem_cons_of_mem f hg))
        (applyFragment tcs f) hlt
      have hslot : (applyFragment tcs f).getD i placeholderToolCall =
          { id := if f.id ≠ "" then f.id else (tcs.getD i placeholderToolCall).id
            type := (tcs.getD i placeholderToolCall).type
            name := if f.name ≠ "" then f.name else (tcs.getD i placeholderToolCall).name
            arguments := (tcs.getD i placeholderToolCall).arguments ++ f.arguments } := by
        rw [hstep]
        exact getD_set_self tcs i _ _ h
      have hother : ∀ j, j ≠ i →
          (applyFragment tcs f).getD j placeholderToolCall
            = tcs.getD j placeholderToolCall := by
        intro j hj
        rw [hstep]
        exact getD_set_ne tcs i j _ _ (fun hh => hj hh.symm)
      have hfold : (f :: t).foldl applyFragment tcs = t.foldl applyFragment (applyFragment tcs f) := rfl
      rw [hfold]
      refine ⟨hrest.1.trans hlen, ?_, ?_, ?_, ?_, ?_⟩
      · rw [hrest.2.1, hslot]
        rfl
      · rw [hrest.2.2.1, hslot]
        rfl
      · rw [hrest.2.2.2.1, hslot]
        simp [concatAll, String.append_assoc]
      · rw [hrest.2.2.2.2.1, hslot]
      · intro j hj
        rw [hrest.2.2.2.2.2 j hj, hother j hj]

/-- C3: fragments sharing one index, merged in arrival order starting from
    the empty array, reconstruct a call whose arguments are the ordered
    concatenation of the fragments' argument substrings, whose id and name
    are the last non-empty value seen (empty when none was seen), whose
    slot carries the fixed `type="function"` marker, and whose padding
    slots below the reported index are exactly the empty placeholder with
    that marker. -/
theorem fragment_reconstruction (i : Nat) (f0 : ToolCallFragment)
    (fs : List ToolCallFragment)
    (hidx : ∀ f ∈ f0 :: fs, f.index = some i) :
    ((f0 :: fs).foldl applyFragment []).length = i + 1 ∧
    (((f0 :: fs).foldl applyFragment []).getD i placeholderToolCall).arguments
      = concatAll ((f0 :: fs).map ToolCallFragment.arguments) ∧
    (((f0 :: fs).foldl applyFragment []).getD i placeholderToolCall).id
      = (lastNonEmpty ((f0 :: fs).map ToolCallFragment.id)).getD "" ∧
    (((f0 :: fs).foldl applyFragment []).getD i placeholderToolCall).name
      = (lastNonEmpty ((f0 :: fs).map ToolCallFragment.name)).getD "" ∧
    (((f0 :: fs).foldl applyFragment []).getD i placeholderToolCall).type
      = "function" ∧
    (∀ j, j < i → ((f0 :: fs).foldl applyFragment []).getD j placeholderToolCall
      = placeholderToolCall) := by
  have hf0 : f0.index = some i := hidx f0 (List.mem_cons_self _ _)
  have hstep : applyFragment [] f0 =
      (List.replicate (i + 1) placeholderToolCall).set i
        { id := if f0.id ≠ "" then f0.id else ""
          type := "function"
          name := if f0.name ≠ "" then f0.name else ""
          arguments := "" ++ f0.arguments } := by
    simp [applyFragment, hf0, padTo, placeholderToolCall,
      getD_replicate_of_lt placeholderToolCall placeholderToolCall (i + 1) i (Nat.lt_succ_self i)]
  have hlen1 : (applyFragment [] f0).length = i + 1 := by
    rw [hstep, List.length_set, List.length_replicate]
  have hlt : i < (applyFragment [] f0).length := by rw [hlen1]; exact Nat.lt_succ_self i
  have hslot : (applyFragment [] f0).getD i placeholderToolCall =
      { id := if f0.id ≠ "" then f0.id else ""
        type := "function"
        name := if f0.name ≠ "" then f0.name else ""
        arguments := "" ++ f0.arguments } := by
    rw [hstep]
    exact getD_set_self _ i _ _ (by rw [List.length_replicate]; exact Nat.lt_succ_self i)
  have hother : ∀ j, j ≠ i →
      (applyFragment [] f0).getD j placeholderToolCall = placeholderToolCall := by
    intro j hj
    rw [hstep, getD_set_ne _ i j _ _ (fun hh => hj hh.symm)]
    by_cases hjn : j < i + 1
    · exact getD_replicate_of_lt _ _ _ j hjn
    · rw [List.getD_eq_default]
      rw [List.length_replicate]
      omega
  have hrest := foldl_applyFragment_fixed i fs
    (fun g hg => hidx g (List.mem_cons_of_mem f0 hg)) (applyFragment [] f0) hlt
  have hfold : (f0 :: fs).foldl applyFragment ([] : List ToolCall)
      = fs.foldl applyFragment (applyFragment [] f0) := rfl
  rw [hfold]
  refine ⟨hrest.1.trans hlen1, ?_, ?_, ?_, ?_, ?_⟩
  · rw [hrest.2.2.2.1, hslot]
    simp [concatAll, String.empty_append]
  · rw [hrest.2.1, hslot]
    rw [show keepNonEmpty (if f0.id ≠ "" then f0.id else "") (fs.map ToolCallFragment.id)
        = keepNonEmpty "" (f0.id :: fs.map ToolCallFragment.id) from rfl]
    rw [keepNonEmpty_eq]
    rfl
  · rw [hrest.2.2.1, hslot]
    rw [show keepNonEmpty (if f0.name ≠ "" then f0.name else "") (fs.map ToolCallFragment.name)
        = keepNonEmpty "" (f0.name :: fs.map ToolCallFragment.name) from rfl]
    rw [keepNonEmpty_eq]
    rfl
  · rw [hrest.2.2.2.2.1, hslot]
  · intro j hj
    rw [hrest.2.2.2.2.2 j (Nat.ne_of_lt hj), hother j (Nat.ne_of_lt hj)]

/-- Two fragments at index 1 used by the C3 witness. -/
def fragA : ToolCallFragment :=
  { index := some 1, id := "", name := "read_calendar", arguments := "ab" }

/-- Second fragment of the C3 witness. -/
def fragB : ToolCallFragment :=
  { index := some 1, id := "call_1", name := "", arguments := "cd" }

/-- C3 witness: the two fragments at index 1 reconstruct arguments "abcd",
    id "call_1" and name "read_calendar", with slot 0 padded by the typed
    placeholder. -/
theorem fragment_reconstruction_witness :
    ([fragA, fragB].foldl applyFragment []).length = 2 ∧
    (([fragA, fragB].foldl applyFragment []).getD 1 placeholderToolCall).arguments = "abcd" ∧
    (([fragA, fragB].foldl applyFragment []).getD 1 placeholderToolCall).id = "call_1" ∧
    (([fragA, fragB].foldl applyFragment []).getD 1 placeholderToolCall).name = "read_calendar" ∧
    ([fragA, fragB].foldl applyFragment []).getD 0 placeholderToolCall = placeholderToolCall := by
  have h := fragment_reconstruction 1 fragA [fragB] (by decide)
  exact ⟨h.1, h.2.1.trans (by decide), h.2.2.1.trans (by decide),
    h.2.2.2.1.trans (by decide), h.2.2.2.2.2 0 (by decide)⟩

/-! ## Concrete fixtures used by witnesses and counterexamples -/

/-- A registry entry whose handler raises (client_agent.py line 577's
    `except` path). -/
def failingEntry : ToolEntry :=
  { handler := fun _ => Except.error "boom", blocking := true, schema := "schemaA" }

/-- A registry entry whose handler returns the in-band error object
    (e.g. `return \x7b"error": "Windows/Outlook required"\x7d`,
    client_agent.py line 93). -/
def inbandEntry : ToolEntry :=
  { handler := fun _ => Except.ok (ToolValue.errObj "Windows/Outlook required"),
    blocking := true, schema := "schemaB" }

/-- A two-entry registry fixture. -/
def sampleRegistry : Registry :=
  [("read_emails", failingEntry), ("get_laptop_status", inbandEntry)]

/-- A `tools/call` envelope naming the given tool. -/
def envelopeCall (name : String) : Envelope :=
  { id := some 3, method := some "tools/call", paramsName := some name,
    paramsArgs := [], result := none }

/-- An envelope with an unrecognized method. -/
def envelopeUnknown : Envelope :=
  { id := some 9, method := some "whoami", paramsName := none,
    paramsArgs := [], result := none }

/-- A round-2 environment fixture: argument parsing fails. -/
def orchEnv0 : OrchestratorEnv :=
  { descriptions := [("read_calendar", "List calendar events.")],
    parseArgs := fun _ => Except.error "parsefail",
    executeTool := fun _ _ => Except.ok "okres" }

/-- A run in which step 1 (fetching tool definitions) raises. -/
def envSetupFail : RunEnv :=
  { setup := Except.error "boom", orch := orchEnv0,
    stream1 := StreamResult.ok [], stream2 := Round2Result.ok [] }

/-- A 61-character content string: one character over the flush
    threshold. -/
def over60 : String := "0123456789012345678901234567890123456789012345678901234567890"

/-- A run whose round-1 stream delivers 61 characters of plain text and
    then a tool-call delta. -/
def envTextThenTool : RunEnv :=
  { setup := Except.ok (), orch := orchEnv0,
    stream1 := StreamResult.ok
      [{ tool_calls := [], content := over60 },
       { tool_calls := [{ index := some 0, id := "call1",
                          name := "read_calendar", arguments := "x" }],
         content := "" }],
    stream2 := Round2Result.ok [] }

/-- A one-element Outlook inbox fixture. -/
def sampleEmail : Email :=
  { entryID := "id1", subject := "subj", sender := "from", received := "t",
    body := "b", attachmentsCount := 0 }

/-! ## Stream-phase characterization lemmas -/

/-- A delta with no tool fragments and no content changes nothing. -/
theorem processDelta_no_tool_no_content (st : StreamState) (d : Delta)
    (hd : d.tool_calls = []) (hc : d.content = "") :
    processDelta st d = (st, []) := by
  simp [processDelta, hd, hc]

/-- A text delta outside tool mode that pushes the buffer over 60
    characters flushes the whole buffer as one text frame. -/
theorem processDelta_no_tool_flush (st : StreamState) (d : Delta)
    (hd : d.tool_calls = []) (hm : st.is_tool_mode = false)
    (hc : d.content ≠ "") (hlen : 60 < (st.text_buffer ++ d.content).length) :
    processDelta st d =
      ({ st with text_buffer := "" }, [Frame.text (st.text_buffer ++ d.content)]) := by
  have hlen' : 60 < st.text_buffer.length + d.content.length := by
    rw [← String.length_append]
    exact hlen
  simp [processDelta, hd, hm, hc, hlen']

/-- A text delta outside tool mode that keeps the buffer at 60 characters
    or less only extends the buffer. -/
theorem processDelta_no_tool_buffer (st : StreamState) (d : Delta)
    (hd : d.tool_calls = []) (hm : st.is_tool_mode = false)
    (hc : d.content ≠ "") (hlen : ¬ 60 < (st.text_buffer ++ d.content).length) :
    processDelta st d =
      ({ st with text_buffer := st.text_buffer ++ d.content }, []) := by
  have hlen' : ¬ 60 < st.text_buffer.length + d.content.length := by
    rw [← String.length_append]
    exact hlen
  simp [processDelta, hd, hm, hc, hlen']

/-- Invariant of a tool-free stream prefix processed outside tool mode:
    tool mode stays off, the accumulated array stays untouched, the flushed
    text plus the residual buffer equals the prior buffer plus all incoming
    content, and every flushed frame is a text frame longer than 60
    characters. -/
theorem processDeltas_text_only (ds : List Delta) :
    ∀ st : StreamState, (∀ d ∈ ds, d.tool_calls = []) → st.is_tool_mode = false →
      (processDeltas st ds).1.is_tool_mode = false ∧
      (processDeltas st ds).1.tool_calls = st.tool_calls ∧
      concatAll ((processDeltas st ds).2.map textContent)
          ++ (processDeltas st ds).1.text_buffer
        = st.text_buffer ++ deltasText ds ∧
      (∀ fr ∈ (processDeltas st ds).2, ∃ s, fr = Frame.text s ∧ 60 < s.length) := by
  induction ds with
  | nil =>
      intro st _ hm
      refine ⟨hm, rfl, ?_, by simp [processDeltas]⟩
      simp [processDeltas, deltasText, concatAll, String.empty_append, String.append_empty]
  | cons d ds ih =>
      intro st h hm
      have hd : d.tool_calls = [] := h d (List.mem_cons_self _ _)
      have hrest : ∀ x ∈ ds, x.tool_calls = [] := fun x hx => h x (List.mem_cons_of_mem d hx)
      have hdt : deltasText (d :: ds) = d.content ++ deltasText ds := rfl
      by_cases hc : d.content = ""
      · have hstep := processDelta_no_tool_no_content st d hd hc
        have hunf : processDeltas st (d :: ds)
            = ((processDeltas st ds).1, (processDeltas st ds).2) := by
          simp [processDeltas, hstep]
        rcases ih st hrest hm with ⟨h1, h2, h3, h4⟩
        rw [hunf]
        refine ⟨h1, h2, ?_, h4⟩
        rw [h3, hdt, hc, String.empty_append]
      · by_cases hlen : 60 < (st.text_buffer ++ d.content).length
        · have hstep := processDelta_no_tool_flush st d hd hm hc hlen
          have hunf : processDeltas st (d :: ds)
              = ((processDeltas { st with text_buffer := "" } ds).1,
                 Frame.text (st.text_buffer ++ d.content)
                   :: (processDeltas { st with text_buffer := "" } ds).2) := by
            simp [processDeltas, hstep]
          rcases ih { st with text_buffer := "" } hrest hm with ⟨h1, h2, h3, h4⟩
          rw [hunf]
          refine ⟨h1, h2, ?_, ?_⟩
          · show (st.text_buffer ++ d.content)
                ++ concatAll ((processDeltas { st with text_buffer := "" } ds).2.map textContent)
                ++ (processDeltas { st with text_buffer := "" } ds).1.text_buffer
              = st.text_buffer ++ (d.content ++ deltasText ds)
            rw [String.append_assoc, h3]
            show (st.text_buffer ++ d.content) ++ ("" ++ deltasText ds)
              = st.text_buffer ++ (d.content ++ deltasText ds)
            rw [String.empty_append, String.append_assoc]
          · intro fr hfr
            rcases List.mem_cons.mp hfr with hfr | hfr
            · exact ⟨st.text_buffer ++ d.content, hfr, hlen⟩
            · exact h4 fr hfr
        · have hstep := processDelta_no_tool_buffer st d hd hm hc hlen
          have hunf : processDeltas st (d :: ds)
              = ((processDeltas { st with text_buffer := st.text_buffer ++ d.content } ds).1,
                 (processDeltas { st with text_buffer := st.text_buffer ++ d.content } ds).2) := by
            simp [processDeltas, hstep]
          rcases ih { st with text_buffer := st.text_buffer ++ d.content } hrest hm
            with ⟨h1, h2, h3, h4⟩
          rw [hunf]
          refine ⟨h1, h2, ?_, h4⟩
          rw [h3, hdt, String.append_assoc]

/-! ## Claim C4 — text-only streams preserve content -/

/-- The trailing flush emits at most one frame. -/
theorem trailingFlush_length_le_one (st : StreamState) :
    (trailingFlush st).length ≤ 1 := by
  unfold trailingFlush
  by_cases h1 : st.text_buffer = ""
  · simp [h1]
  · by_cases h2 : st.tool_calls.isEmpty <;> simp [h1, h2]

/-- C4: when the round-1 stream carries only plain-text deltas (no
    tool-call fragment ever arrives), the concatenated content of the
    emitted text frames equals the concatenated content of the input
    deltas; the in-loop frames are exactly the over-threshold flushes
    (each longer than 60 characters) and the end-of-loop flush adds at
    most one trailing frame. -/
theorem text_only_round_trip (env : RunEnv) (ds : List Delta)
    (hsetup : env.setup = Except.ok ())
    (hs1 : env.stream1 = StreamResult.ok ds)
    (hds : ∀ d ∈ ds, d.tool_calls = []) :
    framesText (smart_stream_generator env) = deltasText ds ∧
    (∀ fr ∈ (processDeltas initState ds).2, ∃ s, fr = Frame.text s ∧ 60 < s.length) ∧
    (trailingFlush (processDeltas initState ds).1).length ≤ 1 := by
  rcases processDeltas_text_only ds initState hds rfl with ⟨_, h2, h3, h4⟩
  have hempty : (processDeltas initState ds).1.tool_calls.isEmpty = true := by
    rw [h2]; rfl
  have hout : smart_stream_generator env
      = (processDeltas initState ds).2
          ++ trailingFlush (processDeltas initState ds).1 ++ [Frame.done] := by
    simp [smart_stream_generator, hsetup, hs1, hempty]
  refine ⟨?_, h4, trailingFlush_length_le_one _⟩
  rw [hout]
  unfold framesText
  rw [List.map_append, List.map_append, concatAll_append, concatAll_append]
  have hdone : concatAll ([Frame.done].map textContent) = "" := rfl
  rw [hdone, String.append_empty]
  unfold trailingFlush
  by_cases hb : (processDeltas initState ds).1.text_buffer = ""
  · rw [if_pos hb]
    have hnil : concatAll (([] : List Frame).map textContent) = "" := rfl
    rw [hnil, String.append_empty]
    have h3' := h3
    rw [hb, String.append_empty,
      show initState.text_buffer = "" from rfl, String.empty_append] at h3'
    exact h3'
  · rw [if_neg hb, if_pos hempty]
    have hone : concatAll ([Frame.text (processDeltas initState ds).1.text_buffer].map textContent)
        = (processDeltas initState ds).1.text_buffer := by
      simp [concatAll, textContent, String.append_empty]
    rw [hone]
    have h3' := h3
    rw [show initState.text_buffer = "" from rfl, String.empty_append] at h3'
    exact h3'

/-- Deltas of the C4 witness: two short text chunks, no tool fragments. -/
def textOnlyDeltas : List Delta :=
  [{ tool_calls := [], content := "Hello " }, { tool_calls := [], content := "world" }]

/-- A run whose round-1 stream is the two text chunks. -/
def envTextOnly (orch : OrchestratorEnv) : RunEnv :=
  { setup := Except.ok (), orch := orch,
    stream1 := StreamResult.ok textOnlyDeltas, stream2 := Round2Result.ok [] }

/-- C4 witness: the two chunks "Hello " and "world" round-trip verbatim. -/
theorem text_only_round_trip_witness :
    framesText (smart_stream_generator (envTextOnly orchEnv0)) = "Hello world" :=
  (text_only_round_trip (envTextOnly orchEnv0) textOnlyDeltas rfl rfl
    (by decide)).1.trans (by decide)

/-! ## Tool-mode suppression lemmas -/

/-- In tool mode, a delta emits nothing, tool mode persists, and the
    accumulated array never shrinks. -/
theorem processDelta_tool_mode (st : StreamState) (d : Delta)
    (hm : st.is_tool_mode = true) :
    (processDelta st d).1.is_tool_mode = true ∧
    (processDelta st d).2 = [] ∧
    st.tool_calls.length ≤ (processDelta st d).1.tool_calls.length := by
  by_cases hd : d.tool_calls.isEmpty
  · by_cases hc : d.content = "" <;> simp [processDelta, hd, hc, hm]
  · by_cases hc : d.content = "" <;>
      · simp [processDelta, hd, hc, hm]
        exact length_le_foldl_applyFragment _ _

/-- In tool mode, a whole remaining stream emits nothing, tool mode
    persists, and the accumulated array never shrinks. -/
theorem processDeltas_tool_mode (ds : List Delta) :
    ∀ st : StreamState, st.is_tool_mode = true →
      (processDeltas st ds).1.is_tool_mode = true ∧
      (processDeltas st ds).2 = [] ∧
      st.tool_calls.length ≤ (processDeltas st ds).1.tool_calls.length := by
  induction ds with
  | nil => intro st hm; exact ⟨hm, rfl, le_refl _⟩
  | cons d ds ih =>
      intro st hm
      have hd := processDelta_tool_mode st d hm
      have hrec := ih (processDelta st d).1 hd.1
      have hunf : processDeltas st (d :: ds)
          = ((processDeltas (processDelta st d).1 ds).1,
             (processDelta st d).2 ++ (processDeltas (processDelta st d).1 ds).2) := rfl
      rw [hunf]
      refine ⟨hrec.1, ?_, le_trans hd.2.2 hrec.2.2⟩
      rw [hd.2.1, hrec.2.1]
      rfl

/-- The first delta carrying an indexed tool-call fragment turns tool mode
    on, emits nothing, and leaves a non-empty accumulated array. -/
theorem processDelta_enters_tool_mode (st : StreamState) (d : Delta)
    (f : ToolCallFragment) (i : Nat) (hm : st.is_tool_mode = false)
    (hf : f ∈ d.tool_calls) (hi : f.index = some i) :
    (processDelta st d).1.is_tool_mode = true ∧
    (processDelta st d).2 = [] ∧
    (processDelta st d).1.tool_calls ≠ [] := by
  have hdne : d.tool_calls.isEmpty = false := by
    cases hc : d.tool_calls
    · rw [hc] at hf; cases hf
    · rfl
  have hpos : 0 < (d.tool_calls.foldl applyFragment st.tool_calls).length :=
    foldl_applyFragment_pos d.tool_calls f i hf hi st.tool_calls
  by_cases hc : d.content = "" <;>
    · simp [processDelta, hdne, hc, hm]
      exact List.ne_nil_of_length_pos hpos

/-- Processing a concatenation of delta lists concatenates the emitted
    frames and threads the state. -/
theorem processDeltas_append (l1 l2 : List Delta) :
    ∀ st : StreamState,
      processDeltas st (l1 ++ l2)
        = ((processDeltas (processDeltas st l1).1 l2).1,
           (processDeltas st l1).2 ++ (processDeltas (processDeltas st l1).1 l2).2) := by
  induction l1 with
  | nil => intro st; simp [processDeltas]
  | cons d t ih =>
      intro st
      simp [processDeltas, ih, List.append_assoc]

/-- The end-of-loop flush never fires once a tool call was accumulated. -/
theorem trailingFlush_of_tool_calls_ne_nil (st : StreamState)
    (h : st.tool_calls ≠ []) : trailingFlush st = [] := by
  have hempty : st.tool_calls.isEmpty = false := by
    cases hc : st.tool_calls
    · exact absurd hc h
    · rfl
  unfold trailingFlush
  by_cases hb : st.text_buffer = "" <;> simp [hb, hempty]

/-- One round-2 call emits only tool-started / tool-result / error frames:
    never a text frame. -/
theorem runToolCall_no_text (env : OrchestratorEnv) (tc : ToolCall) (s : String) :
    Frame.text s ∉ (runToolCall env tc).1 := by
  cases hp : env.parseArgs tc.arguments with
  | error e => simp [runToolCall, hp]
  | ok args =>
      cases he : env.executeTool tc.name args with
      | ok r => simp [runToolCall, hp, he]
      | error e => simp [runToolCall, hp, he]

/-- The round-2 tool loop emits no text frame at all. -/
theorem runToolCalls_no_text (env : OrchestratorEnv) (tcs : List ToolCall) (s : String) :
    Frame.text s ∉ (runToolCalls env tcs).1 := by
  induction tcs with
  | nil => simp [runToolCalls]
  | cons tc t ih =>
      intro hmem
      have hunf : (runToolCalls env (tc :: t)).1
          = (runToolCall env tc).1 ++ (runToolCalls env t).1 := rfl
      rw [hunf] at hmem
      rcases List.mem_append.mp hmem with h | h
      · exact runToolCall_no_text env tc s h
      · exact ih h

/-! ## Claim C2 — filler suppression -/

/-- C2 counterexample: the claim says none of the plain-text content that
    preceded the first tool-call delta appears in any emitted frame,
    regardless of how much text preceded it.  With 61 characters of text
    before the tool-call delta, the buffer exceeds the 60-character
    threshold and is flushed (server.py lines 199–201) before tool mode
    starts, so the preceding content appears verbatim in an emitted text
    frame. -/
theorem filler_flushed_counterexample :
    smart_stream_generator envTextThenTool =
      [Frame.text over60,
       Frame.toolStart "read_calendar" "List calendar events.",
       Frame.error "parsefail", Frame.done] ∧
    Frame.text over60 ∈ smart_stream_generator envTextThenTool := by
  refine ⟨rfl, ?_⟩
  rw [show smart_stream_generator envTextThenTool =
    [Frame.text over60,
     Frame.toolStart "read_calendar" "List calendar events.",
     Frame.error "parsefail", Frame.done] from rfl]
  exact List.mem_cons_self _ _

/-- C2 amended: provided the text preceding the first tool-call delta never
    pushed the buffer over the 60-character threshold (no flush occurred
    before tool mode), suppression is total — the discarded buffer and all
    later content produce no text frame anywhere in the run's output. -/
theorem filler_suppression_total (env : RunEnv) (pre rest : List Delta)
    (dtool : Delta) (f : ToolCallFragment) (i : Nat)
    (hsetup : env.setup = Except.ok ())
    (hs1 : env.stream1 = StreamResult.ok (pre ++ dtool :: rest))
    (hpre : ∀ d ∈ pre, d.tool_calls = [])
    (hf : f ∈ dtool.tool_calls) (hi : f.index = some i)
    (hnoflush : (processDeltas initState pre).2 = []) :
    ∀ s, Frame.text s ∉ smart_stream_generator env := by
  intro s
  rcases processDeltas_text_only pre initState hpre rfl with ⟨hm1, _, _, _⟩
  have henter := processDelta_enters_tool_mode (processDeltas initState pre).1
    dtool f i hm1 hf hi
  have hrest := processDeltas_tool_mode rest
    (processDelta (processDeltas initState pre).1 dtool).1 henter.1
  have hP : processDeltas initState (pre ++ dtool :: rest)
      = ((processDeltas (processDelta (processDeltas initState pre).1 dtool).1 rest).1,
         ([] : List Frame)) := by
    rw [processDeltas_append pre (dtool :: rest) initState]
    have hmid : processDeltas (processDeltas initState pre).1 (dtool :: rest)
        = ((processDeltas (processDelta (processDeltas initState pre).1 dtool).1 rest).1,
           (processDelta (processDeltas initState pre).1 dtool).2
             ++ (processDeltas (processDelta (processDeltas initState pre).1 dtool).1 rest).2) := rfl
    rw [hmid, henter.2.1, hrest.2.1, hnoflush]
    rfl
  have hne : (processDeltas initState (pre ++ dtool :: rest)).1.tool_calls ≠ [] := by
    rw [hP]
    refine List.ne_nil_of_length_pos ?_
    have h1 : 0 < (processDelta (processDeltas initState pre).1 dtool).1.tool_calls.length := by
      cases h : (processDelta (processDeltas initState pre).1 dtool).1.tool_calls
      · exact absurd h henter.2.2
      · simp
    exact lt_of_lt_of_le h1 hrest.2.2
  have hempty : (processDeltas initState (pre ++ dtool :: rest)).1.tool_calls.isEmpty = false := by
    cases h : (processDeltas initState (pre ++ dtool :: rest)).1.tool_calls
    · exact absurd h hne
    · rfl
  have htf : trailingFlush (processDeltas initState (pre ++ dtool :: rest)).1 = [] :=
    trailingFlush_of_tool_calls_ne_nil _ hne
  have hPf : (processDeltas initState (pre ++ dtool :: rest)).2 = [] := by rw [hP]
  cases h2 : env.stream2 with
  | ok cs =>
      have hout : smart_stream_generator env
          = (processDeltas initState (pre ++ dtool :: rest)).2
            ++ trailingFlush (processDeltas initState (pre ++ dtool :: rest)).1
            ++ (runToolCalls env.orch
                  (processDeltas initState (pre ++ dtool :: rest)).1.tool_calls).1
            ++ cs.map Frame.passthrough ++ [Frame.done] := by
        simp [smart_stream_generator, hsetup, hs1, hempty, h2]
      rw [hout, hPf, htf]
      intro hmem
      simp only [List.nil_append, List.mem_append, List.mem_map, List.mem_singleton] at hmem
      rcases hmem with (h | ⟨c, _, hc⟩) | h
      · exact runToolCalls_no_text env.orch _ s h
      · cases hc
      · cases h
  | failsAfter cs msg =>
      have hout : smart_stream_generator env
          = (processDeltas initState (pre ++ dtool :: rest)).2
            ++ trailingFlush (processDeltas initState (pre ++ dtool :: rest)).1
            ++ (runToolCalls env.orch
                  (processDeltas initState (pre ++ dtool :: rest)).1.tool_calls).1
            ++ cs.map Frame.passthrough ++ [Frame.error msg] := by
        simp [smart_stream_generator, hsetup, hs1, hempty, h2]
      rw [hout, hPf, htf]
      intro hmem
      simp only [List.nil_append, List.mem_append, List.mem_map, List.mem_singleton] at hmem
      rcases hmem with (h | ⟨c, _, hc⟩) | h
      · exact runToolCalls_no_text env.orch _ s h
      · cases hc
      · cases h

/-- A two-character text delta (far below the threshold). -/
def shortTextDelta : Delta := { tool_calls := [], content := "hi" }

/-- An indexed fragment used by the C2 and C7 witnesses. -/
def frag0 : ToolCallFragment :=
  { index := some 0, id := "call1", name := "read_calendar", arguments := "x" }

/-- The tool-call delta of the C2 witness. -/
def toolDelta : Delta := { tool_calls := [frag0], content := "" }

/-- A run with a short text delta followed by the tool-call delta. -/
def envShortTextThenTool : RunEnv :=
  { setup := Except.ok (), orch := orchEnv0,
    stream1 := StreamResult.ok [shortTextDelta, toolDelta],
    stream2 := Round2Result.ok [] }

/-- C2 witness: with only two characters of narration before the tool-call
    delta (no flush), the narration appears in no frame. -/
theorem filler_suppression_total_witness :
    Frame.text "hi" ∉ smart_stream_generator envShortTextThenTool :=
  filler_suppression_total envShortTextThenTool [shortTextDelta] []
    toolDelta frag0 0 rfl rfl (by decide) (by decide) rfl rfl "hi"

/-! ## Claim C7 — per-call accounting in the tool round -/

/-- The fallback message for out-of-range indexing. -/
def defaultToolMessage : ToolMessage := { role := "", tool_call_id := "", content := "" }

/-- The round-2 loop appends the per-call messages in call order. -/
theorem runToolCalls_msgs (env : OrchestratorEnv) (tcs : List ToolCall) :
    (runToolCalls env tcs).2 = tcs.map (fun tc => (runToolCall env tc).2) := by
  induction tcs with
  | nil => rfl
  | cons tc t ih =>
      show (runToolCall env tc).2 :: (runToolCalls env t).2 = _
      rw [ih]
      rfl

/-- The frames of one call occur among the frames of the loop. -/
theorem runToolCalls_frames_sub (env : OrchestratorEnv) (tcs : List ToolCall)
    (tc : ToolCall) (htc : tc ∈ tcs) :
    ∀ fr ∈ (runToolCall env tc).1, fr ∈ (runToolCalls env tcs).1 := by
  induction tcs with
  | nil => cases htc
  | cons x t ih =>
      intro fr hfr
      have hunf : (runToolCalls env (x :: t)).1
          = (runToolCall env x).1 ++ (runToolCalls env t).1 := rfl
      rw [hunf]
      rcases List.mem_cons.mp htc with h | h
      · subst h
        exact List.mem_append_left _ hfr
      · exact List.mem_append_right _ (ih h fr hfr)

/-- Every per-call message has the tool role. -/
theorem runToolCall_role (env : OrchestratorEnv) (tc : ToolCall) :
    (runToolCall env tc).2.role = "tool" := by
  cases hp : env.parseArgs tc.arguments with
  | error e => simp [runToolCall, hp]
  | ok args =>
      cases he : env.executeTool tc.name args with
      | ok r => simp [runToolCall, hp, he]
      | error e => simp [runToolCall, hp, he]

/-- Every per-call message carries that call's id. -/
theorem runToolCall_id (env : OrchestratorEnv) (tc : ToolCall) :
    (runToolCall env tc).2.tool_call_id = tc.id := by
  cases hp : env.parseArgs tc.arguments with
  | error e => simp [runToolCall, hp]
  | ok args =>
      cases he : env.executeTool tc.name args with
      | ok r => simp [runToolCall, hp, he]
      | error e => simp [runToolCall, hp, he]

/-- The three outcomes of one call: a parse failure yields an error frame
    and an error message; a successful execution yields a result frame and
    the result as message content; a raised execution yields an error frame
    and an error message. -/
theorem runToolCall_content (env : OrchestratorEnv) (tc : ToolCall) :
    (∃ e, env.parseArgs tc.arguments = Except.error e ∧
        (runToolCall env tc).2.content = "Error: " ++ e ∧
        Frame.error e ∈ (runToolCall env tc).1) ∨
    (∃ args r, env.parseArgs tc.arguments = Except.ok args ∧
        env.executeTool tc.name args = Except.ok r ∧
        (runToolCall env tc).2.content = r ∧
        Frame.toolEnd r ∈ (runToolCall env tc).1) ∨
    (∃ args e, env.parseArgs tc.arguments = Except.ok args ∧
        env.executeTool tc.name args = Except.error e ∧
        (runToolCall env tc).2.content = "Error: " ++ e ∧
        Frame.error e ∈ (runToolCall env tc).1) := by
  cases hp : env.parseArgs tc.arguments with
  | error e =>
      left
      exact ⟨e, rfl, by simp [runToolCall, hp], by simp [runToolCall, hp]⟩
  | ok args =>
      cases he : env.executeTool tc.name args with
      | ok r =>
          right; left
          exact ⟨args, r, rfl, he, by simp [runToolCall, hp, he], by simp [runToolCall, hp, he]⟩
      | error e =>
          right; right
          exact ⟨args, e, rfl, he, by simp [runToolCall, hp, he], by simp [runToolCall, hp, he]⟩

/-- C7: for every accumulated tool call processed in the round-2 loop, one
    tool-role message per call is appended (history grows by exactly the
    call count, in call order), the k-th message carries the k-th call's
    tool_call_id, and its content is the result string on success and an
    error string both when `json.loads` fails on the arguments and when the
    execution raises — a parse failure additionally emits an error frame,
    never a silent skip. -/
theorem tool_round_accounting (env : OrchestratorEnv) (tcs : List ToolCall)
    (k : Nat) (hk : k < tcs.length) :
    (runToolCalls env tcs).2.length = tcs.length ∧
    ((runToolCalls env tcs).2.getD k defaultToolMessage).role = "tool" ∧
    ((runToolCalls env tcs).2.getD k defaultToolMessage).tool_call_id
      = (tcs.getD k placeholderToolCall).id ∧
    ((∃ e, env.parseArgs (tcs.getD k placeholderToolCall).arguments = Except.error e ∧
        ((runToolCalls env tcs).2.getD k defaultToolMessage).content = "Error: " ++ e ∧
        Frame.error e ∈ (runToolCalls env tcs).1) ∨
     (∃ args r, env.parseArgs (tcs.getD k placeholderToolCall).arguments = Except.ok args ∧
        env.executeTool (tcs.getD k placeholderToolCall).name args = Except.ok r ∧
        ((runToolCalls env tcs).2.getD k defaultToolMessage).content = r ∧
        Frame.toolEnd r ∈ (runToolCalls env tcs).1) ∨
     (∃ args e, env.parseArgs (tcs.getD k placeholderToolCall).arguments = Except.ok args ∧
        env.executeTool (tcs.getD k placeholderToolCall).name args = Except.error e ∧
        ((runToolCalls env tcs).2.getD k defaultToolMessage).content = "Error: " ++ e ∧
        Frame.error e ∈ (runToolCalls env tcs).1)) := by
  have hlen : (runToolCalls env tcs).2.length = tcs.length := by
    rw [runToolCalls_msgs]
    exact List.length_map _ _
  have hgd : (runToolCalls env tcs).2.getD k defaultToolMessage
      = (runToolCall env (tcs.getD k placeholderToolCall)).2 := by
    rw [runToolCalls_msgs]
    exact getD_map_of_lt _ tcs k defaultToolMessage placeholderToolCall hk
  have hmem : tcs.getD k placeholderToolCall ∈ tcs := getD_mem_of_lt tcs k _ hk
  have hsub := runToolCalls_frames_sub env tcs _ hmem
  refine ⟨hlen, by rw [hgd]; exact runToolCall_role env _,
    by rw [hgd]; exact runToolCall_id env _, ?_⟩
  rcases runToolCall_content env (tcs.getD k placeholderToolCall) with
    ⟨e, hp, hc, hfr⟩ | ⟨args, r, hp, he, hc, hfr⟩ | ⟨args, e, hp, he, hc, hfr⟩
  · exact Or.inl ⟨e, hp, by rw [hgd]; exact hc, hsub _ hfr⟩
  · exact Or.inr (Or.inl ⟨args, r, hp, he, by rw [hgd]; exact hc, hsub _ hfr⟩)
  · exact Or.inr (Or.inr ⟨args, e, hp, he, by rw [hgd]; exact hc, hsub _ hfr⟩)

/-- The accumulated call used by the C7 witness. -/
def toolCallX : ToolCall :=
  { id := "call1", type := "function", name := "read_calendar", arguments := "x" }

/-- C7 witness: at a concrete environment whose parse fails, one call
    produces exactly one tool-role message carrying the call's id. -/
theorem tool_round_accounting_witness :
    (runToolCalls orchEnv0 [toolCallX]).2.length = 1 ∧
    ((runToolCalls orchEnv0 [toolCallX]).2.getD 0 defaultToolMessage).role = "tool" ∧
    ((runToolCalls orchEnv0 [toolCallX]).2.getD 0 defaultToolMessage).tool_call_id = "call1" := by
  have h := tool_round_accounting orchEnv0 [toolCallX] 0 (by decide)
  exact ⟨h.1, h.2.1, h.2.2.1.trans (by decide)⟩

/-! ## Claim C1 — terminator frame on the error path -/

/-- C1: the claim states that every run of `smart_stream_generator` ends
    with the `data: [DONE]` terminator, the error path included.  The code
    contradicts it: the terminator is yielded inside the `try` block
    (server.py line 255) while the `except` handler (lines 257–260) yields
    only the error frame, so a run whose step 1 raises ends on the error
    frame with no terminator.  The spec itself flags this omission as a
    defect of the source (design note on the error path), so the claim is
    the intent and the code a slip: evaluated at a run where fetching the
    tool definitions raises `Exception("boom")`, the emitted sequence is
    exactly the error frame and contains no terminator. -/
theorem smart_stream_error_path_omits_done :
    smart_stream_generator envSetupFail = [Frame.error "boom"] ∧
    Frame.done ∉ smart_stream_generator envSetupFail := by
  refine ⟨rfl, ?_⟩
  rw [show smart_stream_generator envSetupFail = [Frame.error "boom"] from rfl]
  simp

/-! ## Claim C5 — unknown tool name -/

/-- C5: for every `tools/call` envelope naming a tool absent from the
    registry, `handle_message` sends back exactly one response carrying the
    request's id and an error with code −32601, and the registry (the only
    agent state the handler touches) is unchanged, leaving the connection
    usable. -/
theorem handle_message_unknown_tool (reg : Registry) (data : Envelope)
    (hm : data.method = some "tools/call")
    (hp : data.result ≠ some "pong")
    (hl : registryLookup reg data.paramsName = none) :
    handle_message reg data =
      (some { jsonrpc := "2.0", id := data.id, result := none,
              error := some { code := -32601, message := "Tool not found" } }, reg) := by
  simp [handle_message, hm, hp, hl]

/-- C5 witness: the −32601 response at a concrete envelope and registry. -/
theorem handle_message_unknown_tool_witness :
    handle_message sampleRegistry (envelopeCall "no_such_tool") =
      (some { jsonrpc := "2.0", id := some 3, result := none,
              error := some { code := -32601, message := "Tool not found" } },
       sampleRegistry) :=
  handle_message_unknown_tool sampleRegistry (envelopeCall "no_such_tool")
    rfl (by decide) rfl

/-! ## Claim C6 — raised exceptions versus in-band error objects -/

/-- C6: for a registered tool, the two failure channels stay distinct: a
    handler exception becomes an error response with code −32000 carrying
    the exception's message, while a returned `\x7berror: string\x7d`
    object becomes a successful result response (no RPC-level error)
    containing the object serialized as text; both paths return a response
    normally, so the connection is not torn down. -/
theorem handle_message_failure_channels (reg : Registry) (data : Envelope)
    (tool : ToolEntry)
    (hm : data.method = some "tools/call")
    (hp : data.result ≠ some "pong")
    (hl : registryLookup reg data.paramsName = some tool) :
    (∀ e, tool.handler data.paramsArgs = Except.error e →
        handle_message reg data =
          (some { jsonrpc := "2.0", id := data.id, result := none,
                  error := some { code := -32000, message := e } }, reg)) ∧
    (∀ m, tool.handler data.paramsArgs = Except.ok (ToolValue.errObj m) →
        handle_message reg data =
          (some { jsonrpc := "2.0", id := data.id,
                  result := some (RpcResult.content
                    (serializeToolValue (ToolValue.errObj m))),
                  error := none }, reg)) := by
  constructor
  · intro e he
    simp [handle_message, hm, hp, hl, he]
  · intro m hv
    simp [handle_message, hm, hp, hl, hv]

/-- C6 witness: both channels exercised on the concrete registry — the
    raising handler yields the −32000 error response, the in-band error
    object yields a result response with no RPC error. -/
theorem handle_message_failure_channels_witness :
    handle_message sampleRegistry (envelopeCall "read_emails") =
      (some { jsonrpc := "2.0", id := some 3, result := none,
              error := some { code := -32000, message := "boom" } },
       sampleRegistry) ∧
    handle_message sampleRegistry (envelopeCall "get_laptop_status") =
      (some { jsonrpc := "2.0", id := some 3,
              result := some (RpcResult.content
                "\x7b\"error\": \"Windows/Outlook required\"\x7d"),
              error := none }, sampleRegistry) :=
  ⟨(handle_message_failure_channels sampleRegistry (envelopeCall "read_emails")
      failingEntry rfl (by decide) rfl).1 "boom" rfl,
   (handle_message_failure_channels sampleRegistry (envelopeCall "get_laptop_status")
      inbandEntry rfl (by decide) rfl).2 "Windows/Outlook required" rfl⟩

/-! ## Claim C9 — unrecognized methods still get a bare response -/

/-- C9: for every envelope whose method is none of ping, tools/list,
    tools/call and whose result is not "pong", `handle_message` still sends
    a response, and that response carries only the jsonrpc version and the
    request's id — no result member, no error member: unknown methods are
    not rejected with a method-not-found error. -/
theorem handle_message_unknown_method (reg : Registry) (data : Envelope)
    (h1 : data.method ≠ some "ping")
    (h2 : data.method ≠ some "tools/list")
    (h3 : data.method ≠ some "tools/call")
    (h4 : data.result ≠ some "pong") :
    handle_message reg data =
      (some { jsonrpc := "2.0", id := data.id, result := none, error := none },
       reg) := by
  simp [handle_message, h1, h2, h3, h4]

/-- C9 witness: the bare response at a concrete unknown-method envelope. -/
theorem handle_message_unknown_method_witness :
    handle_message sampleRegistry envelopeUnknown =
      (some { jsonrpc := "2.0", id := some 9, result := none, error := none },
       sampleRegistry) :=
  handle_message_unknown_method sampleRegistry envelopeUnknown
    (by decide) (by decide) (by decide) (by decide)

/-! ## Claim C10 — search result cap -/

/-- C10 counterexample: the claim bounds the result length by
    `min(count, 20)` for every input, but at `count = -1` the code returns
    an empty list (0 summaries) while `min(count, 20) = -1`, and
    `0 ≤ -1` is false — the stated bound fails for negative counts. -/
theorem search_emails_count_counterexample :
    (tool_search_emails [sampleEmail] (-1)).length = 0 ∧
    ¬ (((tool_search_emails [sampleEmail] (-1)).length : Int) ≤ min (-1 : Int) 20) := by
  decide

/-- C10 amended: the result of `tool_search_emails` contains at most
    `max 0 (min count 20)` summaries (the nonnegative clamp of the
    claimed bound, which `range` of a negative count forces); in
    particular at most 20 even when the requested count exceeds 20. -/
theorem search_emails_result_capped (matching : List Email) (count : Int) :
    (tool_search_emails matching count).length ≤ (min count 20).toNat ∧
    (tool_search_emails matching count).length ≤ 20 := by
  have h : (tool_search_emails matching count).length
      = Nat.min (min count 20).toNat matching.length := by
    simp [tool_search_emails, List.length_take]
  have h20 : (min count 20).toNat ≤ 20 := by
    have h1 : min count 20 ≤ (20 : Int) := min_le_right _ _
    omega
  constructor
  · rw [h]; exact Nat.min_le_left _ _
  · rw [h]; exact le_trans (Nat.min_le_left _ _) h20

/-! ## Claim C8 — reconnect backoff -/

/-- C8 counterexample: the claim says every way the connection ends is
    followed by the 5-second backoff before the next attempt, but the
    `asyncio.sleep(5)` sits in the outer `except` handler
    (client_agent.py line 547) while a `ConnectionClosed` is caught by the
    inner handler (line 541), so a server close reconnects immediately: in
    the trace of a close followed by a failed connect, two connection
    attempts are adjacent with no backoff between them. -/
theorem agent_loop_backoff_counterexample :
    agent_loop [ConnOutcome.closedInLoop, ConnOutcome.connectFail "refused"] =
      [AgentEvent.connectAttempt, AgentEvent.connectAttempt, AgentEvent.backoff 5] ∧
    noAdjacentAttempts
      (agent_loop [ConnOutcome.closedInLoop, ConnOutcome.connectFail "refused"]) = false := by
  decide

/-- The backoff of one loop iteration separates it from the next attempt
    whenever the iteration did not end in a ConnectionClosed caught by the
    inner handler. -/
theorem noAdjacentAttempts_iteration (o : ConnOutcome) (tr : List AgentEvent)
    (h : o ≠ ConnOutcome.closedInLoop) :
    noAdjacentAttempts (agentIteration o ++ tr) = noAdjacentAttempts tr := by
  cases o with
  | connectFail m => rfl
  | closedInLoop => exact absurd rfl h
  | errorInLoop m => rfl

/-- Each iteration of the loop performs exactly one connection attempt. -/
theorem countAttempts_iteration (o : ConnOutcome) :
    countAttempts (agentIteration o) = 1 := by
  cases o <;> rfl

/-- Attempt counting distributes over trace concatenation. -/
theorem countAttempts_append (a b : List AgentEvent) :
    countAttempts (a ++ b) = countAttempts a + countAttempts b := by
  simp [countAttempts, List.filter_append]

/-- C8 amended: the loop never terminates on its own — after N iterations
    it has attempted exactly N connections — and consecutive attempts are
    separated by the fixed 5-second backoff provided no iteration ended in
    a ConnectionClosed caught by the inner handler (connection-establishment
    failures and non-close errors do back off; a graceful server close
    reconnects immediately). -/
theorem agent_loop_attempts_and_backoff (outs : List ConnOutcome) :
    countAttempts (agent_loop outs) = outs.length ∧
    (ConnOutcome.closedInLoop ∉ outs →
      noAdjacentAttempts (agent_loop outs) = true) := by
  induction outs with
  | nil => exact ⟨rfl, fun _ => rfl⟩
  | cons o os ih =>
      constructor
      · rw [show agent_loop (o :: os) = agentIteration o ++ agent_loop os from rfl,
            countAttempts_append, countAttempts_iteration, ih.1]
        simp [Nat.add_comm]
      · intro hmem
        have ho : o ≠ ConnOutcome.closedInLoop := by
          intro h
          exact hmem (h ▸ List.mem_cons_self o os)
        rw [show agent_loop (o :: os) = agentIteration o ++ agent_loop os from rfl,
            noAdjacentAttempts_iteration o _ ho]
        exact ih.2 (fun h => hmem (List.mem_cons_of_mem o h))

/-- C8 witness: two consecutive failures give exactly two attempts with the
    backoff between them. -/
theorem agent_loop_attempts_and_backoff_witness :
    countAttempts (agent_loop
      [ConnOutcome.connectFail "refused", ConnOutcome.errorInLoop "reset"]) = 2 ∧
    noAdjacentAttempts (agent_loop
      [ConnOutcome.connectFail "refused", ConnOutcome.errorInLoop "reset"]) = true :=
  ⟨(agent_loop_attempts_and_backoff
      [ConnOutcome.connectFail "refused", ConnOutcome.errorInLoop "reset"]).1,
   (agent_loop_attempts_and_backoff
      [ConnOutcome.connectFail "refused", ConnOutcome.errorInLoop "reset"]).2
     (by decide)⟩

end G3Chat
